import Mathlib

/-!
Verification of the twirp-rs protocol runtime (`src/service_run.rs`) and the
generated server dispatch (`src/service_gen.rs`), as a shallow embedding.

Modelling conventions:
* Byte sequences (`Vec<u8>`, Rust `String` contents as UTF-8) are `List Nat`.
* `hyper::HeaderMap` is an association list with lowercase names; `insert`
  replaces every entry of the same name, `get` returns the first match.
* `StatusCode` and `Version` are `Nat`; `Method` and `Uri` are `String`
  (we model the URI by its path, the only part the code inspects).
* `serde_json::Value` is the inductive `Json`; numbers are modelled as
  integers (floating point is outside the scope of this embedding).
* Opaque foreign error values (`hyper::Error`) are modelled by a `Nat` tag;
  `prost` encode/decode errors by a `String` message.
-/

/-- Model of `Vec<u8>` and of the UTF-8 contents of a Rust `String`. -/
abbrev Bytes := List Nat

/-- UTF-8 encoding of one unicode scalar value. -/
def natUtf8 (n : Nat) : Bytes :=
  if n < 128 then [n]
  else if n < 2048 then [192 + n / 64, 128 + n % 64]
  else if n < 65536 then [224 + n / 4096, 128 + (n / 64) % 64, 128 + n % 64]
  else [240 + n / 262144, 128 + (n / 4096) % 64, 128 + (n / 64) % 64, 128 + n % 64]

/-- UTF-8 bytes of a string literal (used to transport Rust string literals
into the byte-level model). -/
def strBytes (s : String) : Bytes := s.data.flatMap (fun c => natUtf8 c.toNat)

/-- Model of `hyper::HeaderMap<HeaderValue>`: ordered list of
(lowercase name, value) pairs. -/
abbrev Headers := List (String × String)

/-- `HeaderMap::get`: first value stored under the name. -/
def headerGet (hs : Headers) (k : String) : Option String :=
  (hs.find? (fun p => p.1 == k)).map (fun p => p.2)

/-- `HeaderMap::insert`: drop every entry under the name, store the new value. -/
def headerInsert (hs : Headers) (k v : String) : Headers :=
  hs.filter (fun p => p.1 != k) ++ [(k, v)]

mutual
/-- Model of `serde_json::Value` (numbers restricted to integers; string
contents kept as raw UTF-8 bytes). Arrays and objects are mutual inductives
so that all functions over them are structurally recursive. -/
inductive Json where
  | null : Json
  | bool (b : Bool) : Json
  | num (n : Int) : Json
  | str (s : Bytes) : Json
  | arr (elems : JsonList) : Json
  | obj (fields : JsonFields) : Json

/-- A list of JSON values (the payload of `Json.arr`). -/
inductive JsonList where
  | nil : JsonList
  | cons (hd : Json) (tl : JsonList) : JsonList

/-- A list of JSON object fields (the payload of `Json.obj`). -/
inductive JsonFields where
  | nil : JsonFields
  | cons (key : Bytes) (val : Json) (tl : JsonFields) : JsonFields
end

deriving instance DecidableEq for Json, JsonList, JsonFields

/-- Hex digit used by `serde_json` control-character escapes (lowercase). -/
def hexDigit (n : Nat) : Nat := if n < 10 then 48 + n else 87 + n

/-- `serde_json` escaping of one byte of string content: `"` and `\` get a
backslash escape, the control bytes 8, 9, 10, 12, 13 get their short escapes,
other control bytes become `\u00XX`, everything else is emitted raw. -/
def escapeByte (b : Nat) : Bytes :=
  if b = 34 then [92, 34]
  else if b = 92 then [92, 92]
  else if b = 8 then [92, 98]
  else if b = 9 then [92, 116]
  else if b = 10 then [92, 110]
  else if b = 12 then [92, 102]
  else if b = 13 then [92, 114]
  else if b < 32 then [92, 117, 48, 48, hexDigit (b / 16), hexDigit (b % 16)]
  else [b]

/-- Escaped rendering of a whole string body. -/
def escBytes (s : Bytes) : Bytes := s.flatMap escapeByte

/-- Rendering of a JSON string literal, quotes included. -/
def renderStr (s : Bytes) : Bytes := 34 :: escBytes s ++ [34]

/-- Decimal digits, most significant first (ASCII); fueled so that the
recursion is structural and kernel-reducible. The fuel `n + 1` in
`natDigits` always suffices. -/
def natDigitsAux : Nat → Nat → Bytes
  | 0, _ => []
  | fuel + 1, n => if n < 10 then [48 + n] else natDigitsAux fuel (n / 10) ++ [48 + n % 10]

/-- Decimal digits of a natural number, most significant first (ASCII). -/
def natDigits (n : Nat) : Bytes := natDigitsAux (n + 1) n

/-- `serde_json` rendering of an integer. -/
def renderInt (n : Int) : Bytes :=
  if n < 0 then 45 :: natDigits n.natAbs else natDigits n.toNat

mutual
/-- Compact (whitespace-free) rendering of a JSON value, exactly as
`serde_json::to_vec` produces it. -/
def renderJson : Json → Bytes
  | .null => [110, 117, 108, 108]
  | .bool true => [116, 114, 117, 101]
  | .bool false => [102, 97, 108, 115, 101]
  | .num n => renderInt n
  | .str s => renderStr s
  | .arr .nil => [91, 93]
  | .arr (.cons v vs) => 91 :: renderJson v ++ renderArrTail vs ++ [93]
  | .obj .nil => [123, 125]
  | .obj (.cons k v fs) => 123 :: renderStr k ++ 58 :: renderJson v ++ renderObjTail fs ++ [125]

/-- Rendering of the tail of an array body: a leading comma per element. -/
def renderArrTail : JsonList → Bytes
  | .nil => []
  | .cons v vs => 44 :: renderJson v ++ renderArrTail vs

/-- Rendering of the tail of an object body: a leading comma per field. -/
def renderObjTail : JsonFields → Bytes
  | .nil => []
  | .cons k v fs => 44 :: renderStr k ++ 58 :: renderJson v ++ renderObjTail fs
end

/-- Value of an ASCII hex digit. -/
def hexVal (b : Nat) : Option Nat :=
  if 48 ≤ b ∧ b ≤ 57 then some (b - 48)
  else if 97 ≤ b ∧ b ≤ 102 then some (b - 87)
  else if 65 ≤ b ∧ b ≤ 70 then some (b - 55)
  else none

/-- Unescaping of a single-character string escape (`\u` handled separately;
`\/` is accepted by `serde_json` as well). -/
def unescapeChar (e : Nat) : Option Nat :=
  if e = 34 then some 34
  else if e = 92 then some 92
  else if e = 47 then some 47
  else if e = 98 then some 8
  else if e = 116 then some 9
  else if e = 110 then some 10
  else if e = 102 then some 12
  else if e = 114 then some 13
  else none

/-- Parse the body of a JSON string literal up to (and consuming) the closing
quote, returning the unescaped content bytes and the remaining input. -/
def parseStrBody : Bytes → Option (Bytes × Bytes)
  | [] => none
  | b :: rest =>
    if b = 34 then some ([], rest)
    else if b = 92 then
      match rest with
      | [] => none
      | e :: rest2 =>
        if e = 117 then
          match rest2 with
          | h1 :: h2 :: h3 :: h4 :: rest3 =>
            match hexVal h1, hexVal h2, hexVal h3, hexVal h4 with
            | some a, some b2, some c, some d =>
              (parseStrBody rest3).map
                (fun p => (natUtf8 (((a * 16 + b2) * 16 + c) * 16 + d) ++ p.1, p.2))
            | _, _, _, _ => none
          | _ => none
        else
          match unescapeChar e with
          | some v => (parseStrBody rest2).map (fun p => (v :: p.1, p.2))
          | none => none
    else (parseStrBody rest).map (fun p => (b :: p.1, p.2))

/-- ASCII decimal digit test. -/
def isDigit (b : Nat) : Bool := 48 ≤ b && b ≤ 57

/-- Consume a run of decimal digits, folding them onto `acc`. -/
def parseDigitsAux : Bytes → Nat → Nat × Bytes
  | [], acc => (acc, [])
  | b :: rest, acc =>
    if isDigit b then parseDigitsAux rest (acc * 10 + (b - 48)) else (acc, b :: rest)

mutual
/-- Fueled parser for one compact JSON value, the model of `serde_json`
parsing restricted to the whitespace-free form its own serializer emits.
Returns the value and the unconsumed input. -/
def parseVal : Nat → Bytes → Option (Json × Bytes)
  | 0, _ => none
  | _ + 1, [] => none
  | fuel + 1, b :: rest =>
    if b = 110 then
      match rest with
      | 117 :: 108 :: 108 :: r => some (.null, r)
      | _ => none
    else if b = 116 then
      match rest with
      | 114 :: 117 :: 101 :: r => some (.bool true, r)
      | _ => none
    else if b = 102 then
      match rest with
      | 97 :: 108 :: 115 :: 101 :: r => some (.bool false, r)
      | _ => none
    else if b = 34 then
      (parseStrBody rest).map (fun p => (.str p.1, p.2))
    else if b = 91 then
      if rest.head? = some 93 then some (.arr .nil, rest.tail)
      else (parseItems fuel rest).map (fun p => (.arr p.1, p.2))
    else if b = 123 then
      if rest.head? = some 125 then some (.obj .nil, rest.tail)
      else (parseFields fuel rest).map (fun p => (.obj p.1, p.2))
    else if b = 45 then
      match rest with
      | d :: _ =>
        if isDigit d then
          let p := parseDigitsAux rest 0
          some (.num (-(p.1 : Int)), p.2)
        else none
      | [] => none
    else if isDigit b then
      let p := parseDigitsAux (b :: rest) 0
      some (.num (p.1 : Int), p.2)
    else none

/-- Parse the elements of a nonempty array body, consuming the closing `]`. -/
def parseItems : Nat → Bytes → Option (JsonList × Bytes)
  | 0, _ => none
  | fuel + 1, l =>
    match parseVal fuel l with
    | none => none
    | some (v, r) =>
      match r with
      | 44 :: r2 => (parseItems fuel r2).map (fun p => (.cons v p.1, p.2))
      | 93 :: r2 => some (.cons v .nil, r2)
      | _ => none

/-- Parse the fields of a nonempty object body, consuming the closing brace. -/
def parseFields : Nat → Bytes → Option (JsonFields × Bytes)
  | 0, _ => none
  | fuel + 1, l =>
    match l with
    | 34 :: r0 =>
      match parseStrBody r0 with
      | none => none
      | some (k, r1) =>
        match r1 with
        | 58 :: r2 =>
          match parseVal fuel r2 with
          | none => none
          | some (v, r3) =>
            match r3 with
            | 44 :: r4 => (parseFields fuel r4).map (fun p => (.cons k v p.1, p.2))
            | 125 :: r4 => some (.cons k v .nil, r4)
            | _ => none
        | _ => none
    | _ => none
end

/-- Parse one complete JSON document; the fuel `length + 1` always suffices
for documents produced by `renderJson`. -/
def parseJson (l : Bytes) : Option (Json × Bytes) := parseVal (l.length + 1) l

/-- Model of `TwirpError` (`service_run.rs`): `status` carries the HTTP
status and is `#[serde(skip)]`-ped in the JSON body; `code` and `msg` hold
the UTF-8 bytes of the Rust strings; `meta` is skipped when `None`. -/
structure TwirpError where
  status : Nat
  code : Bytes
  msg : Bytes
  meta : Option Json
  deriving DecidableEq

/-- `http::StatusCode::default()`, the value the serde skip attribute puts in
the `status` field during deserialization (overwritten by `from_json_bytes`). -/
def statusDefault : Nat := 200

/-- The serde `Serialize` derive on `TwirpError`: fields in declaration
order, `status` skipped, `meta` skipped when `None`. -/
def TwirpError.toJsonValue (e : TwirpError) : Json :=
  .obj (.cons (strBytes "code") (.str e.code)
    (.cons (strBytes "msg") (.str e.msg)
      (match e.meta with
       | none => .nil
       | some v => .cons (strBytes "meta") v .nil)))

/-- `TwirpError::to_json_bytes`, i.e. `serde_json::to_vec(&self)`.
Serialization of this struct cannot fail, so the model is total. -/
def TwirpError.to_json_bytes (e : TwirpError) : Bytes := renderJson e.toJsonValue

/-- serde deserialization of the `meta : Option<serde_json::Value>` field:
JSON `null` deserializes to `None`, everything else to `Some`. -/
def jsonToMeta (v : Json) : Option Json :=
  match v with
  | .null => none
  | _ => some v

/-- `String::deserialize` from a JSON value: only a JSON string is accepted. -/
def jsonAsStr : Json → Option Bytes
  | .str s => some s
  | _ => none

/-- The serde `Deserialize` derive on `TwirpError`, walking the object
fields in order: duplicate fields are an error, unknown fields are ignored,
`code` and `msg` are required, a missing `meta` is `None`. -/
def twirpFields : JsonFields → Option Bytes → Option Bytes → Option (Option Json) →
    Option (Bytes × Bytes × Option Json)
  | .nil, codeAcc, msgAcc, metaAcc =>
    match codeAcc with
    | none => none
    | some c =>
      match msgAcc with
      | none => none
      | some m => some (c, m, metaAcc.getD none)
  | .cons k v fs, codeAcc, msgAcc, metaAcc =>
    if k = strBytes "code" then
      if codeAcc.isSome then none
      else
        match jsonAsStr v with
        | some s => twirpFields fs (some s) msgAcc metaAcc
        | none => none
    else if k = strBytes "msg" then
      if msgAcc.isSome then none
      else
        match jsonAsStr v with
        | some s => twirpFields fs codeAcc (some s) metaAcc
        | none => none
    else if k = strBytes "meta" then
      if metaAcc.isSome then none
      else twirpFields fs codeAcc msgAcc (some (jsonToMeta v))
    else twirpFields fs codeAcc msgAcc metaAcc

/-- Deserialization of a `TwirpError` from a JSON value (`status` takes the
`#[serde(skip)]` default). -/
def twirpFromJsonValue (v : Json) : Option TwirpError :=
  match v with
  | .obj fs =>
    (twirpFields fs none none none).map
      (fun t => { status := statusDefault, code := t.1, msg := t.2.1, meta := t.2.2 })
  | _ => none

/-- `TwirpError::from_json_bytes`: `serde_json::from_slice` (which must
consume the whole input) followed by overwriting `status` with the given
HTTP status. -/
def TwirpError.from_json_bytes (status : Nat) (json : Bytes) : Option TwirpError :=
  match parseJson json with
  | some (v, []) => (twirpFromJsonValue v).map (fun e => { e with status := status })
  | _ => none

/-- `TwirpError::new`: a Twirp error with no meta. -/
def TwirpError.new (status : Nat) (code msg : String) : TwirpError :=
  { status := status, code := strBytes code, msg := strBytes msg, meta := none }

/-- The `Content-Type` value `application/protobuf` (`application_proto()`). -/
def applicationProto : String := "application/protobuf"

/-- The `Content-Type` value `application/json` (`application_json()`). -/
def applicationJson : String := "application/json"

/-- Model of a `hyper::Response<Body>` with a fully buffered body. -/
structure HyperResponse where
  status : Nat
  headers : Headers
  body : Bytes
  deriving DecidableEq

/-- `TwirpError::to_hyper_resp`: serialize to JSON (the model serializer is
total, so the literal empty-object fallback of the source is unreachable), set
`Content-Type: application/json` and a correct `Content-Length`. -/
def TwirpError.to_hyper_resp (e : TwirpError) : HyperResponse :=
  { status := e.status,
    headers := [("content-type", applicationJson),
                ("content-length", Nat.repr e.to_json_bytes.length)],
    body := e.to_json_bytes }

/-- Model of `ProstTwirpError` (`service_run.rs`). `HyperError` carries an
opaque transport error (a `Nat` tag); prost codec errors carry a message. -/
inductive ProstTwirpError where
  | TwirpError (e : TwirpError) : ProstTwirpError
  | JsonDecodeError : ProstTwirpError
  | ProstEncodeError (err : String) : ProstTwirpError
  | ProstDecodeError (err : String) : ProstTwirpError
  | HyperError (err : Nat) : ProstTwirpError
  | AfterBodyError (body : Bytes) (method : Option String) (version : Nat)
      (headers : Headers) (status : Option Nat) (err : ProstTwirpError) : ProstTwirpError
  deriving DecidableEq

/-- `ProstTwirpError::root_err`: this same error, or the underlying error if
it is an `AfterBodyError`. -/
def ProstTwirpError.root_err : ProstTwirpError → ProstTwirpError
  | .AfterBodyError _ _ _ _ _ err => err.root_err
  | e => e

/-- Whether a value is an `AfterBodyError` wrapper. -/
def ProstTwirpError.isAfterBody : ProstTwirpError → Bool
  | .AfterBodyError _ _ _ _ _ _ => true
  | _ => false

/-- `ProstTwirpError::to_hyper_resp`: unwrap the body layers, then map
decode errors to 400, Twirp errors to their own response, propagate hyper
errors unchanged (`Err`), and everything else to 500. -/
def ProstTwirpError.to_hyper_resp (e : ProstTwirpError) : Except Nat HyperResponse :=
  match e.root_err with
  | .ProstDecodeError _ =>
    .ok (TwirpError.new 400 "protobuf_decode_err" "Invalid protobuf body").to_hyper_resp
  | .TwirpError err => .ok err.to_hyper_resp
  | .HyperError err => .error err
  | _ => .ok (TwirpError.new 500 "internal_err" "Internal Error").to_hyper_resp

/-- `http::Version::default()` (HTTP/1.1), modelled as a tag. -/
def versionDefault : Nat := 11

/-- Model of `ServiceRequest<T>`: HTTP metadata plus a payload. The URI is
modelled by its path (`Uri::default()` is the empty path). -/
structure ServiceRequest (T : Type) where
  uri : String
  method : String
  version : Nat
  headers : Headers
  input : T
  deriving DecidableEq

/-- `ServiceRequest::new`: fresh metadata, `POST`, and a
`Content-Type: application/protobuf` header. -/
def ServiceRequest.new {T : Type} (input : T) : ServiceRequest T :=
  { uri := "", method := "POST", version := versionDefault,
    headers := headerInsert [] "content-type" applicationProto, input := input }

/-- `ServiceRequest::clone_with_input`: same metadata, different payload. -/
def ServiceRequest.clone_with_input {T U : Type} (r : ServiceRequest T) (input : U) :
    ServiceRequest U :=
  { uri := r.uri, method := r.method, version := r.version, headers := r.headers,
    input := input }

/-- Model of a `hyper::Request<Body>` with a fully buffered body. -/
structure HyperRequest where
  method : String
  uri : String
  headers : Headers
  body : Bytes
  deriving DecidableEq

/-- `ServiceRequest::<Vec<u8>>::to_hyper_raw`: build a `POST` request with
the payload as body, copy all envelope headers over those of the builder, then
overwrite `Content-Length` with the payload byte length. -/
def ServiceRequest.to_hyper_raw (r : ServiceRequest Bytes) : HyperRequest :=
  { method := "POST", uri := r.uri,
    headers := headerInsert r.headers "content-length" (Nat.repr r.input.length),
    body := r.input }

/-- `ServiceRequest::<Vec<u8>>::body_err`: wrap an error together with the
request body and metadata (`method` set, `status` absent). -/
def ServiceRequest.body_err (r : ServiceRequest Bytes) (err : ProstTwirpError) :
    ProstTwirpError :=
  .AfterBodyError r.input (some r.method) r.version r.headers none err

/-- `ServiceRequest::<Vec<u8>>::to_proto::<T>`: decode the payload (the
decoder models `T::decode` of the prost message type `T`); a decode failure
is body-wrapped. -/
def ServiceRequest.to_proto {T : Type} (decode : Bytes → Except String T)
    (r : ServiceRequest Bytes) : Except ProstTwirpError (ServiceRequest T) :=
  match decode r.input with
  | .ok v => .ok (r.clone_with_input v)
  | .error err => .error (r.body_err (.ProstDecodeError err))

/-- `ServiceRequest::<T>::to_proto_raw`: encode the payload into a fresh
buffer (the encoder models `Message::encode`); an encode failure is
`ProstEncodeError`, not body-wrapped. -/
def ServiceRequest.to_proto_raw {T : Type} (encode : T → Except String Bytes)
    (r : ServiceRequest T) : Except ProstTwirpError (ServiceRequest Bytes) :=
  match encode r.input with
  | .error err => .error (.ProstEncodeError err)
  | .ok body => .ok (r.clone_with_input body)

/-- Model of `ServiceResponse<T>`. -/
structure ServiceResponse (T : Type) where
  version : Nat
  headers : Headers
  status : Nat
  output : T
  deriving DecidableEq

/-- `ServiceResponse::new`: status 200 and a
`Content-Type: application/protobuf` header. -/
def ServiceResponse.new {T : Type} (output : T) : ServiceResponse T :=
  { version := versionDefault,
    headers := headerInsert [] "content-type" applicationProto,
    status := 200, output := output }

/-- `ServiceResponse::clone_with_output`. -/
def ServiceResponse.clone_with_output {T U : Type} (r : ServiceResponse T) (output : U) :
    ServiceResponse U :=
  { version := r.version, headers := r.headers, status := r.status, output := output }

/-- `ServiceResponse::<Vec<u8>>::to_hyper_raw`: build a response with the
status and body of the envelope, copy all envelope headers, then overwrite
`Content-Length` with the payload byte length. -/
def ServiceResponse.to_hyper_raw (r : ServiceResponse Bytes) : HyperResponse :=
  { status := r.status,
    headers := headerInsert r.headers "content-length" (Nat.repr r.output.length),
    body := r.output }

/-- `ServiceResponse::<Vec<u8>>::body_err`: wrap an error together with the
response body and metadata (`method` absent, `status` set). -/
def ServiceResponse.body_err (r : ServiceResponse Bytes) (err : ProstTwirpError) :
    ProstTwirpError :=
  .AfterBodyError r.output none r.version r.headers (some r.status) err

/-- `StatusCode::is_success()`: 200..=299. -/
def statusIsSuccess (s : Nat) : Bool := 200 ≤ s && s ≤ 299

/-- `ServiceResponse::<Vec<u8>>::to_proto::<T>`: on a success status decode
the payload as `T`; otherwise parse the payload as a `TwirpError` JSON body
(inheriting the HTTP status); every failure is body-wrapped. -/
def ServiceResponse.to_proto {T : Type} (decode : Bytes → Except String T)
    (r : ServiceResponse Bytes) : Except ProstTwirpError (ServiceResponse T) :=
  if statusIsSuccess r.status then
    match decode r.output with
    | .ok v => .ok (r.clone_with_output v)
    | .error err => .error (r.body_err (.ProstDecodeError err))
  else
    match TwirpError.from_json_bytes r.status r.output with
    | some err => .error (r.body_err (.TwirpError err))
    | none => .error (r.body_err .JsonDecodeError)

/-- Drop every trailing `/` (`str::trim_right_matches('/')`). -/
def rtrimSlash (s : List Char) : List Char :=
  (s.reverse.dropWhile (fun c => c = '/')).reverse

/-- Drop every leading `/` (`str::trim_left_matches('/')`). -/
def ltrimSlash (s : List Char) : List Char :=
  s.dropWhile (fun c => c = '/')

/-- Model of `HyperClient`: the stored root URL (the wrapped hyper client
itself is irrelevant to URI construction). -/
structure HyperClient where
  root_url : List Char

/-- `HyperClient::new`: right-trim trailing slashes off the root URL. -/
def HyperClient.new (root_url : List Char) : HyperClient :=
  { root_url := rtrimSlash root_url }

/-- The URI `HyperClient::go` computes:
`format!("\x7b\x7d/\x7b\x7d", self.root_url, path.trim_left_matches('/'))`. -/
def HyperClient.goUri (c : HyperClient) (path : List Char) : List Char :=
  c.root_url ++ '/' :: ltrimSlash path

/-- The service descriptor fields the generated dispatch depends on
(`prost_build::Service`): package, proto-level service name, and the
proto-level method names. -/
structure PbService where
  package : String
  proto_name : String
  methods : List String

/-- `TwirpServiceGenerator::twirp_uri`:
`/twirp/<package>.<ServiceProtoName>/<MethodProtoName>`. -/
def twirpUri (svc : PbService) (methodProtoName : String) : String :=
  "/twirp/" ++ svc.package ++ "." ++ svc.proto_name ++ "/" ++ methodProtoName

/-- Outcome of the generated dispatch prefix: either an immediate canonical
error response, or the request was routed to the handler of the named method
(body decode and the user handler run after this point). -/
inductive DispatchOutcome where
  | resp (r : HyperResponse) : DispatchOutcome
  | routed (methodProtoName : String) : DispatchOutcome
  deriving DecidableEq

/-- The `(Method::POST, <twirp uri>)` match arms of the generated handler:
first method whose arm matches `(req.method, req.uri.path())`. -/
def findMethod (svc : PbService) (req : HyperRequest) : Option String :=
  svc.methods.find? (fun m => req.method == "POST" && req.uri == twirpUri svc m)

/-- The routing step of the generated handler, run after the body has been
buffered: an unmatched `(method, path)` produces the 404 response. -/
def routeRequest (svc : PbService) (req : HyperRequest) : DispatchOutcome :=
  match findMethod svc req with
  | some m => .routed m
  | none => .resp (TwirpError.new 404 "not_found" "Not found no").to_hyper_resp

/-- `TwirpServiceGenerator::generate_handler`, the server dispatch emitted
for a service: inspect `Content-Type` (the generated code compares against
the literal `application/proto` and `application/json`), answering 415 on
anything else; then read the body and match `(method, path)` against the
generated arms. -/
def dispatch (svc : PbService) (req : HyperRequest) : DispatchOutcome :=
  match headerGet req.headers "content-type" with
  | some ct =>
    if ct = "application/proto" then routeRequest svc req
    else if ct = "application/json" then routeRequest svc req
    else .resp (TwirpError.new 415 "bad_content_type"
      "Content type must be application/protobuf").to_hyper_resp
  | none => .resp (TwirpError.new 415 "bad_content_type"
      "Content type must be application/protobuf").to_hyper_resp

/-- Base-128 varint encoding (protobuf wire format), least significant
group first. -/
def varintEnc (n : Nat) : Bytes :=
  if h : n < 128 then [n] else (n % 128 + 128) :: varintEnc (n / 128)
decreasing_by exact Nat.div_lt_self (by omega) (by omega)

/-- Base-128 varint decoding. -/
def varintDec : Bytes → Option (Nat × Bytes)
  | [] => none
  | b :: rest =>
    if b < 128 then some (b, rest)
    else
      match varintDec rest with
      | some (v, rest2) => some (v * 128 + (b - 128), rest2)
      | none => none

/-- A concrete prost message type used to instantiate the generic envelope
theorems: `message PbMsg \x7b uint64 n = 1; \x7d`. -/
structure PbMsg where
  n : Nat
  deriving DecidableEq

/-- prost encoding of `PbMsg`: nothing for the default value, otherwise the
field-1/varint tag byte `0x08` followed by the varint. -/
def pbEncode (m : PbMsg) : Bytes :=
  if m.n = 0 then [] else 8 :: varintEnc m.n

/-- prost decoding of `PbMsg`, restricted to the encodings `pbEncode`
produces (prost additionally skips unknown fields, which `pbEncode` never
emits). -/
def pbDecode (l : Bytes) : Except String PbMsg :=
  match l with
  | [] => .ok { n := 0 }
  | 8 :: rest =>
    match varintDec rest with
    | some (v, []) => .ok { n := v }
    | some _ => .error "trailing bytes"
    | none => .error "invalid varint"
  | _ => .error "unexpected field"

/-- The key list of a JSON object body, in order. -/
def jsonKeys : JsonFields → List Bytes
  | .nil => []
  | .cons k _ fs => k :: jsonKeys fs

/-- The example service of the end-to-end scenarios of the spec: package `x`,
service `Svc`, one method `Do`. -/
def exampleSvc : PbService := { package := "x", proto_name := "Svc", methods := ["Do"] }

/-- A `POST /twirp/x.Svc/Do` request with `Content-Type: application/protobuf`
(what the own client of the runtime, `ServiceRequest::new`, sends). -/
def exampleProtobufReq : HyperRequest :=
  { method := "POST", uri := "/twirp/x.Svc/Do",
    headers := [("content-type", "application/protobuf")], body := [8, 7] }

/-- The same request with `Content-Type: application/proto`, the literal the
generated handler actually compares against. -/
def exampleProtoReq : HyperRequest :=
  { method := "POST", uri := "/twirp/x.Svc/Do",
    headers := [("content-type", "application/proto")], body := [8, 7] }

/-- A `POST` to a path with no handler (spec scenario E2). -/
def exampleMissingReq : HyperRequest :=
  { method := "POST", uri := "/twirp/x.Svc/Missing",
    headers := [("content-type", "application/json")], body := [] }

/-- The E6 serialization fixture of the spec. -/
def exampleFixtureErr : TwirpError :=
  { status := 500, code := strBytes "internal", msg := strBytes "Something went wrong",
    meta := none }

theorem headerGet_headerInsert (hs : Headers) (k v : String) :
    headerGet (headerInsert hs k v) k = some v := by
  unfold headerGet headerInsert
  rw [List.find?_append]
  have hnone : (hs.filter (fun p => p.1 != k)).find? (fun p => p.1 == k) = none := by
    rw [List.find?_eq_none]
    intro p hp
    have := List.of_mem_filter hp
    simpa using this
  simp [hnone]

theorem head?_dropWhileSlash (l : List Char) :
    (l.dropWhile (fun c => c = '/')).head? ≠ some '/' := by
  induction l with
  | nil => simp [List.dropWhile]
  | cons c l ih =>
    by_cases h : c = '/'
    · simpa [List.dropWhile, h] using ih
    · simp [List.dropWhile, h]

theorem rtrimSlash_getLast (s : List Char) : (rtrimSlash s).getLast? ≠ some '/' := by
  unfold rtrimSlash
  rw [List.getLast?_reverse]
  exact head?_dropWhileSlash s.reverse

/-- C10: `root_err` never returns an `AfterBodyError`, and is idempotent. -/
theorem root_err_flat_idempotent (e : ProstTwirpError) :
    e.root_err.isAfterBody = false ∧ e.root_err.root_err = e.root_err := by
  induction e with
  | AfterBodyError body method version headers status err ih =>
    simpa [ProstTwirpError.root_err] using ih
  | _ => simp [ProstTwirpError.root_err, ProstTwirpError.isAfterBody]

/-- C5: for both byte-payload envelopes, the HTTP message built by
`to_hyper_raw` carries a `Content-Length` equal to the payload byte length,
whatever `Content-Length` the own headers of the envelope held (envelope headers
are copied, then `Content-Length` is overwritten). -/
theorem to_hyper_raw_content_length (rq : ServiceRequest Bytes) (rs : ServiceResponse Bytes) :
    headerGet rq.to_hyper_raw.headers "content-length" = some (Nat.repr rq.input.length)
    ∧ headerGet rs.to_hyper_raw.headers "content-length" = some (Nat.repr rs.output.length) := by
  constructor
  · exact headerGet_headerInsert rq.headers "content-length" (Nat.repr rq.input.length)
  · exact headerGet_headerInsert rs.headers "content-length" (Nat.repr rs.output.length)

/-- C6: the URI a client built by `HyperClient::new(client, root)` computes
in `go(path, req)` has exactly one `/` at the junction: it splits as
`r ++ "/" ++ p` where `r` does not end and `p` does not start with `/`,
whatever trailing/leading slashes `root` and `path` carry. -/
theorem goUri_single_slash (root path : List Char) :
    ∃ r p, (HyperClient.new root).goUri path = r ++ '/' :: p
      ∧ r.getLast? ≠ some '/' ∧ p.head? ≠ some '/' := by
  refine ⟨rtrimSlash root, ltrimSlash path, rfl, rtrimSlash_getLast root, ?_⟩
  exact head?_dropWhileSlash path

theorem from_json_bytes_status (S : Nat) (b : Bytes) (t : TwirpError)
    (h : TwirpError.from_json_bytes S b = some t) : t.status = S := by
  unfold TwirpError.from_json_bytes at h
  split at h
  · rw [Option.map_eq_some'] at h
    obtain ⟨e, _, he⟩ := h
    rw [← he]
  · exact absurd h (by simp)

/-- C3: `RuntimeError::to_hyper_resp` strips `AfterBodyError` wrappers, then
maps a protobuf-decode error to 400/`protobuf_decode_err`, a protocol
`TwirpError` to its own status and body, propagates a hyper transport error
unchanged as `Err`, and maps every other variant to 500/`internal_err`. -/
theorem to_hyper_resp_cases (e : ProstTwirpError) :
    (∀ body method version headers status inner,
      (ProstTwirpError.AfterBodyError body method version headers status inner).to_hyper_resp
        = inner.to_hyper_resp)
    ∧ (∀ d, e.root_err = .ProstDecodeError d →
        ∃ r, e.to_hyper_resp = .ok r ∧ r.status = 400
          ∧ r.body = (TwirpError.new 400 "protobuf_decode_err" "Invalid protobuf body").to_json_bytes)
    ∧ (∀ t, e.root_err = .TwirpError t →
        ∃ r, e.to_hyper_resp = .ok r ∧ r.status = t.status ∧ r.body = t.to_json_bytes)
    ∧ (∀ h, e.root_err = .HyperError h → e.to_hyper_resp = .error h)
    ∧ ((e.root_err = .JsonDecodeError ∨ ∃ s, e.root_err = .ProstEncodeError s) →
        ∃ r, e.to_hyper_resp = .ok r ∧ r.status = 500
          ∧ r.body = (TwirpError.new 500 "internal_err" "Internal Error").to_json_bytes) := by
  refine ⟨?_, ?_, ?_, ?_, ?_⟩
  · intro body method version headers status inner
    simp [ProstTwirpError.to_hyper_resp, ProstTwirpError.root_err]
  · intro d h
    exact ⟨(TwirpError.new 400 "protobuf_decode_err" "Invalid protobuf body").to_hyper_resp,
      by simp [ProstTwirpError.to_hyper_resp, h], rfl, rfl⟩
  · intro t h
    exact ⟨t.to_hyper_resp, by simp [ProstTwirpError.to_hyper_resp, h], rfl, rfl⟩
  · intro hy h
    simp [ProstTwirpError.to_hyper_resp, h]
  · rintro (h | ⟨s, h⟩)
    · exact ⟨(TwirpError.new 500 "internal_err" "Internal Error").to_hyper_resp,
        by simp [ProstTwirpError.to_hyper_resp, h], rfl, rfl⟩
    · exact ⟨(TwirpError.new 500 "internal_err" "Internal Error").to_hyper_resp,
        by simp [ProstTwirpError.to_hyper_resp, h], rfl, rfl⟩

theorem to_hyper_resp_cases_witness :
    (ProstTwirpError.AfterBodyError [8, 7] none 11 [] none (.HyperError 7)).to_hyper_resp
        = .error 7
    ∧ ∃ r, (ProstTwirpError.AfterBodyError [1] none 11 [] (some 200)
        (.ProstDecodeError "invalid tag")).to_hyper_resp = .ok r ∧ r.status = 400
        ∧ r.body = (TwirpError.new 400 "protobuf_decode_err" "Invalid protobuf body").to_json_bytes :=
  ⟨(to_hyper_resp_cases (ProstTwirpError.AfterBodyError [8, 7] none 11 [] none
      (.HyperError 7))).2.2.2.1 7 rfl,
   (to_hyper_resp_cases (ProstTwirpError.AfterBodyError [1] none 11 [] (some 200)
      (.ProstDecodeError "invalid tag"))).2.1 "invalid tag" rfl⟩

/-- C4: `ServiceResponse::<Vec<u8>>::to_proto::<T>` branches on
`status.is_success()`: on success it decodes `T` (decode failures become a
body-wrapped `ProstDecodeError`); otherwise it parses the body as a
`TwirpError` JSON value whose `status` is inherited from the response, and a
JSON parse failure becomes a body-wrapped `JsonDecodeError` carrying the
body, metadata and status. -/
theorem response_to_proto_cases {T : Type} (decode : Bytes → Except String T)
    (r : ServiceResponse Bytes) :
    (∀ v, statusIsSuccess r.status = true → decode r.output = .ok v →
      r.to_proto decode = .ok (r.clone_with_output v))
    ∧ (∀ d, statusIsSuccess r.status = true → decode r.output = .error d →
      r.to_proto decode = .error (.AfterBodyError r.output none r.version r.headers
        (some r.status) (.ProstDecodeError d)))
    ∧ (∀ t, statusIsSuccess r.status = false →
        TwirpError.from_json_bytes r.status r.output = some t →
      r.to_proto decode = .error (.AfterBodyError r.output none r.version r.headers
        (some r.status) (.TwirpError t)) ∧ t.status = r.status)
    ∧ (statusIsSuccess r.status = false →
        TwirpError.from_json_bytes r.status r.output = none →
      r.to_proto decode = .error (.AfterBodyError r.output none r.version r.headers
        (some r.status) .JsonDecodeError)) := by
  refine ⟨?_, ?_, ?_, ?_⟩
  · intro v hs hd
    simp [ServiceResponse.to_proto, hs, hd]
  · intro d hs hd
    simp [ServiceResponse.to_proto, hs, hd, ServiceResponse.body_err]
  · intro t hs ht
    refine ⟨by simp [ServiceResponse.to_proto, hs, ht, ServiceResponse.body_err], ?_⟩
    exact from_json_bytes_status r.status r.output t ht
  · intro hs ht
    simp [ServiceResponse.to_proto, hs, ht, ServiceResponse.body_err]

theorem response_to_proto_cases_witness :
    ({ version := 11, headers := [("content-type", "application/json")], status := 403,
       output := strBytes "\x7b\"code\":\"forbidden\",\"msg\":\"no\"\x7d" }
        : ServiceResponse Bytes).to_proto pbDecode
      = .error (.AfterBodyError (strBytes "\x7b\"code\":\"forbidden\",\"msg\":\"no\"\x7d")
          none 11 [("content-type", "application/json")] (some 403)
          (.TwirpError
            { status := 403, code := strBytes "forbidden", msg := strBytes "no",
              meta := none }))
    ∧ ({ status := 403, code := strBytes "forbidden", msg := strBytes "no",
         meta := none } : TwirpError).status = 403 :=
  (response_to_proto_cases pbDecode
    { version := 11, headers := [("content-type", "application/json")], status := 403,
      output := strBytes "\x7b\"code\":\"forbidden\",\"msg\":\"no\"\x7d" }).2.2.1
    { status := 403, code := strBytes "forbidden", msg := strBytes "no", meta := none }
    (by decide) (by decide)

/-- C1 (code evaluation): the generated dispatch answers 415
`bad_content_type` to a request whose `Content-Type` is exactly
`application/protobuf` — the value its own error message demands and its own
client sends — because the generated guard compares against the literal
`application/proto`; and it routes a request bearing `application/proto`,
a value outside the accepted set of the claim. -/
theorem dispatch_content_type_eval :
    dispatch exampleSvc exampleProtobufReq
      = .resp (TwirpError.new 415 "bad_content_type"
          "Content type must be application/protobuf").to_hyper_resp
    ∧ dispatch exampleSvc exampleProtoReq = .routed "Do" := by decide

/-- C2 (code evaluation): a `POST` matching no dispatch arm yields 404 with
body `{"code":"not_found","msg":"Not found no"}` — the `msg` is
`"Not found no"`, not the `"Not found"` the claim states. -/
theorem dispatch_not_found_eval :
    dispatch exampleSvc exampleMissingReq
      = .resp { status := 404,
                headers := [("content-type", "application/json"), ("content-length", "41")],
                body := strBytes "\x7b\"code\":\"not_found\",\"msg\":\"Not found no\"\x7d" }
    ∧ strBytes "\x7b\"code\":\"not_found\",\"msg\":\"Not found no\"\x7d"
      ≠ strBytes "\x7b\"code\":\"not_found\",\"msg\":\"Not found\"\x7d" := by decide

theorem varintDec_enc (n : Nat) (rest : Bytes) :
    varintDec (varintEnc n ++ rest) = some (n, rest) := by
  induction n using Nat.strong_induction_on with
  | _ n ih =>
    rw [varintEnc]
    by_cases h : n < 128
    · simp [h, varintDec]
    · have h2 : n / 128 < n := Nat.div_lt_self (by omega) (by omega)
      have hb : ¬(n % 128 + 128 < 128) := by omega
      simp only [h, dite_false]
      rw [List.cons_append]
      simp only [varintDec, hb, if_false, ih (n / 128) h2]
      have heq : n / 128 * 128 + (n % 128 + 128 - 128) = n := by omega
      rw [heq]

theorem pbDecode_pbEncode (m : PbMsg) : pbDecode (pbEncode m) = .ok m := by
  obtain ⟨n⟩ := m
  by_cases h : n = 0
  · simp [pbEncode, pbDecode, h]
  · have hv := varintDec_enc n []
    rw [List.append_nil] at hv
    simp [pbEncode, h, pbDecode, hv]

/-- C7: for any prost message type (modelled by an encoder that always
succeeds and a decoder inverting it), `ServiceRequest::new(m).to_proto_raw()`
succeeds, and `to_proto` on its result returns exactly
`ServiceRequest::new(m)` — same method, version, URI, headers (including the
`Content-Type` inserted by construction) and payload. -/
theorem request_roundtrip {T : Type} (enc : T → Bytes)
    (encode : T → Except String Bytes) (decode : Bytes → Except String T)
    (henc : ∀ m, encode m = .ok (enc m)) (hdec : ∀ m, decode (enc m) = .ok m) (m : T) :
    ∃ raw, (ServiceRequest.new m).to_proto_raw encode = .ok raw
      ∧ raw.to_proto decode = .ok (ServiceRequest.new m) := by
  refine ⟨(ServiceRequest.new m).clone_with_input (enc m), ?_, ?_⟩
  · simp [ServiceRequest.to_proto_raw, ServiceRequest.new, henc m]
  · simp [ServiceRequest.to_proto, ServiceRequest.clone_with_input, hdec m, ServiceRequest.new]

theorem request_roundtrip_witness :
    ∃ raw, (ServiceRequest.new (⟨7⟩ : PbMsg)).to_proto_raw (fun m => .ok (pbEncode m))
      = .ok raw ∧ raw.to_proto pbDecode = .ok (ServiceRequest.new (⟨7⟩ : PbMsg)) :=
  request_roundtrip pbEncode (fun m => .ok (pbEncode m)) pbDecode
    (fun _ => rfl) pbDecode_pbEncode ⟨7⟩

/-- C8: with `meta = None` the serialized `TwirpError` object has exactly
the fields `code` and `msg`, in that order (no `meta`, no `status`); and the
E6 fixture of the spec serializes to the literal JSON bytes. -/
theorem to_json_bytes_shape :
    (∀ st c m, ∃ fs,
      TwirpError.toJsonValue { status := st, code := c, msg := m, meta := none } = .obj fs
      ∧ jsonKeys fs = [strBytes "code", strBytes "msg"])
    ∧ TwirpError.to_json_bytes exampleFixtureErr
      = strBytes "\x7b\"code\":\"internal\",\"msg\":\"Something went wrong\"\x7d" := by
  constructor
  · intro st c m
    exact ⟨_, rfl, rfl⟩
  · decide

theorem natUtf8_small (b : Nat) (h : b < 128) : natUtf8 b = [b] := by
  simp [natUtf8, h]

theorem hexVal_hexDigit (n : Nat) (h : n < 16) : hexVal (hexDigit n) = some n := by
  unfold hexVal hexDigit
  split_ifs <;> simp_all <;> omega

theorem parseStrBody_esc (s : Bytes) (rest : Bytes) :
    parseStrBody (escBytes s ++ 34 :: rest) = some (s, rest) := by
  induction s with
  | nil =>
    rw [show escBytes [] ++ 34 :: rest = 34 :: rest by simp [escBytes], parseStrBody.eq_def]
    simp
  | cons b s ih =>
    have hesc : escBytes (b :: s) = escapeByte b ++ escBytes s := by
      simp [escBytes]
    rw [hesc, List.append_assoc]
    by_cases h34 : b = 34
    · subst h34
      rw [show escapeByte 34 = [92, 34] from rfl, List.cons_append, List.cons_append,
        List.nil_append, parseStrBody.eq_def]
      simp [unescapeChar, ih]
    · by_cases h92 : b = 92
      · subst h92
        rw [show escapeByte 92 = [92, 92] from rfl, List.cons_append, List.cons_append,
          List.nil_append, parseStrBody.eq_def]
        simp [unescapeChar, ih]
      · by_cases h8 : b = 8
        · subst h8
          rw [show escapeByte 8 = [92, 98] from rfl, List.cons_append, List.cons_append,
            List.nil_append, parseStrBody.eq_def]
          simp [unescapeChar, ih]
        · by_cases h9 : b = 9
          · subst h9
            rw [show escapeByte 9 = [92, 116] from rfl, List.cons_append, List.cons_append,
              List.nil_append, parseStrBody.eq_def]
            simp [unescapeChar, ih]
          · by_cases h10 : b = 10
            · subst h10
              rw [show escapeByte 10 = [92, 110] from rfl, List.cons_append, List.cons_append,
                List.nil_append, parseStrBody.eq_def]
              simp [unescapeChar, ih]
            · by_cases h12 : b = 12
              · subst h12
                rw [show escapeByte 12 = [92, 102] from rfl, List.cons_append, List.cons_append,
                  List.nil_append, parseStrBody.eq_def]
                simp [unescapeChar, ih]
              · by_cases h13 : b = 13
                · subst h13
                  rw [show escapeByte 13 = [92, 114] from rfl, List.cons_append, List.cons_append,
                    List.nil_append, parseStrBody.eq_def]
                  simp [unescapeChar, ih]
                · by_cases hctl : b < 32
                  · have hdiv : b / 16 < 16 := by omega
                    have hmod : b % 16 < 16 := by omega
                    have hb128 : b < 128 := by omega
                    have hval : ((0 * 16 + 0) * 16 + b / 16) * 16 + b % 16 = b := by omega
                    have hb : escapeByte b
                        = [92, 117, 48, 48, hexDigit (b / 16), hexDigit (b % 16)] := by
                      simp [escapeByte, h34, h92, h8, h9, h10, h12, h13, hctl]
                    have h48 : hexVal 48 = some 0 := rfl
                    have hh1 : hexVal (hexDigit (b / 16)) = some (b / 16) :=
                      hexVal_hexDigit _ hdiv
                    have hh2 : hexVal (hexDigit (b % 16)) = some (b % 16) :=
                      hexVal_hexDigit _ hmod
                    rw [hb]
                    simp only [List.cons_append, List.nil_append]
                    rw [parseStrBody.eq_def]
                    simp only [h48, hh1, hh2]
                    have hval2 : (b / 16) * 16 + b % 16 = b := by omega
                    simp [hval2, natUtf8_small b hb128, ih]
                  · have hb : escapeByte b = [b] := by
                      simp [escapeByte, h34, h92, h8, h9, h10, h12, h13, hctl]
                    rw [hb]
                    simp only [List.cons_append, List.nil_append]
                    rw [parseStrBody.eq_def]
                    simp [h34, h92, ih]

theorem natDigitsAux_digits (fuel : Nat) : ∀ n, n < fuel →
    ∀ b ∈ natDigitsAux fuel n, isDigit b = true := by
  induction fuel with
  | zero => intro n hn; omega
  | succ fuel ih =>
    intro n _ b hb
    by_cases h : n < 10
    · simp [natDigitsAux, h] at hb
      subst hb
      simp [isDigit]; omega
    · simp only [natDigitsAux, h, if_false, List.mem_append] at hb
      rcases hb with hb | hb
      · exact ih (n / 10) (by omega) b hb
      · simp at hb
        subst hb
        simp [isDigit]; omega

theorem natDigitsAux_foldl (fuel : Nat) : ∀ n acc, n < fuel →
    (natDigitsAux fuel n).foldl (fun a v => a * 10 + (v - 48)) acc
      = acc * 10 ^ (natDigitsAux fuel n).length + n := by
  induction fuel with
  | zero => intro n acc hn; omega
  | succ fuel ih =>
    intro n acc _
    by_cases h : n < 10
    · simp [natDigitsAux, h]
    · have hdiv : n / 10 < fuel := by
        have := Nat.div_lt_self (show 0 < n by omega) (show 1 < 10 by omega)
        omega
      simp only [natDigitsAux, h, if_false, List.foldl_append, List.length_append,
        List.foldl_cons, List.foldl_nil, List.length_cons, List.length_nil]
      rw [ih (n / 10) acc hdiv]
      have hm : n % 10 + 48 - 48 = n % 10 := by omega
      rw [pow_succ]
      have : 48 + n % 10 - 48 = n % 10 := by omega
      rw [this]
      have hd : n / 10 * 10 + n % 10 = n := by omega
      ring_nf
      omega

theorem natDigits_head (n : Nat) :
    ∃ b t, natDigits n = b :: t ∧ isDigit b = true := by
  unfold natDigits
  generalize hfuel : n + 1 = fuel
  have hlt : 0 < fuel := by omega
  clear hfuel
  induction fuel generalizing n with
  | zero => omega
  | succ fuel ih =>
    by_cases h : n < 10
    · refine ⟨48 + n, [], by simp [natDigitsAux, h], by simp [isDigit]; omega⟩
    · by_cases hf : fuel = 0
      · subst hf
        refine ⟨48 + n % 10, [], by simp [natDigitsAux, h], by simp [isDigit]; omega⟩
      · obtain ⟨b, t, hbt, hd⟩ := ih (n / 10) (by omega)
        exact ⟨b, t ++ [48 + n % 10], by simp [natDigitsAux, h, hbt], hd⟩

theorem parseDigitsAux_run (ds : Bytes) : ∀ (rest : Bytes) (acc : Nat),
    (∀ b ∈ ds, isDigit b = true) →
    (∀ b, rest.head? = some b → isDigit b = false) →
    parseDigitsAux (ds ++ rest) acc
      = (ds.foldl (fun a v => a * 10 + (v - 48)) acc, rest) := by
  induction ds with
  | nil =>
    intro rest acc _ hrest
    cases rest with
    | nil => simp [parseDigitsAux]
    | cons b r =>
      have := hrest b (by simp)
      simp [parseDigitsAux, this]
  | cons d ds ih =>
    intro rest acc hds hrest
    have hd : isDigit d = true := hds d (by simp)
    simp only [List.cons_append, parseDigitsAux, hd, if_true, List.foldl_cons]
    exact ih rest (acc * 10 + (d - 48)) (fun b hb => hds b (by simp [hb])) hrest

theorem parseDigits_natDigits (n : Nat) (rest : Bytes)
    (hrest : ∀ b, rest.head? = some b → isDigit b = false) :
    parseDigitsAux (natDigits n ++ rest) 0 = (n, rest) := by
  rw [parseDigitsAux_run (natDigits n) rest 0
    (natDigitsAux_digits (n + 1) n (by omega)) hrest]
  rw [show natDigits n = natDigitsAux (n + 1) n from rfl,
    natDigitsAux_foldl (n + 1) n 0 (by omega)]
  simp

theorem renderJson_head (v : Json) :
    ∃ b t, renderJson v = b :: t ∧ b ≠ 93 ∧ b ≠ 125 := by
  cases v with
  | null => exact ⟨110, _, rfl, by omega, by omega⟩
  | bool b => cases b
              · exact ⟨102, _, rfl, by omega, by omega⟩
              · exact ⟨116, _, rfl, by omega, by omega⟩
  | num n =>
    by_cases hn : n < 0
    · exact ⟨45, natDigits n.natAbs, by simp [renderJson, renderInt, hn], by omega, by omega⟩
    · obtain ⟨b, t, hbt, hd⟩ := natDigits_head n.toNat
      refine ⟨b, t, by simp [renderJson, renderInt, hn, hbt], ?_, ?_⟩
      · simp [isDigit] at hd; omega
      · simp [isDigit] at hd; omega
  | str s => exact ⟨34, _, rfl, by omega, by omega⟩
  | arr vs => cases vs with
              | nil => exact ⟨91, _, rfl, by omega, by omega⟩
              | cons v vs => exact ⟨91, _, rfl, by omega, by omega⟩
  | obj fs => cases fs with
              | nil => exact ⟨123, _, rfl, by omega, by omega⟩
              | cons k v fs => exact ⟨123, _, rfl, by omega, by omega⟩

theorem parse_render_fuel (fuel : Nat) :
    (∀ v rest, (renderJson v).length < fuel →
      (∀ b, rest.head? = some b → isDigit b = false) →
      parseVal fuel (renderJson v ++ rest) = some (v, rest))
    ∧ (∀ v vs rest, (renderJson v).length + (renderArrTail vs).length + 1 < fuel →
      parseItems fuel (renderJson v ++ renderArrTail vs ++ 93 :: rest)
        = some (.cons v vs, rest))
    ∧ (∀ k v fs rest,
        (renderStr k).length + (renderJson v).length + (renderObjTail fs).length + 2 < fuel →
      parseFields fuel (renderStr k ++ 58 :: renderJson v ++ renderObjTail fs ++ 125 :: rest)
        = some (.cons k v fs, rest)) := by
  induction fuel with
  | zero => exact ⟨fun v rest h => by omega, fun v vs rest h => by omega,
      fun k v fs rest h => by omega⟩
  | succ fuel IH =>
    obtain ⟨ihV, ihI, ihF⟩ := IH
    refine ⟨?_, ?_, ?_⟩
    · intro v rest hlen hrest
      cases v with
      | null =>
        rw [show renderJson .null ++ rest = 110 :: 117 :: 108 :: 108 :: rest from rfl]
        rfl
      | bool b =>
        cases b
        · rw [show renderJson (.bool false) ++ rest
            = 102 :: 97 :: 108 :: 115 :: 101 :: rest from rfl]
          rfl
        · rw [show renderJson (.bool true) ++ rest
            = 116 :: 114 :: 117 :: 101 :: rest from rfl]
          rfl
      | num n =>
        by_cases hn : n < 0
        · have hr : renderJson (.num n) = 45 :: natDigits n.natAbs := by
            simp [renderJson, renderInt, hn]
          obtain ⟨d, t, hdt, hdig⟩ := natDigits_head n.natAbs
          rw [hr, List.cons_append]
          simp only [parseVal]
          rw [hdt, List.cons_append]
          simp only [show ¬(45 : Nat) = 110 by omega, show ¬(45 : Nat) = 116 by omega,
            show ¬(45 : Nat) = 102 by omega, show ¬(45 : Nat) = 34 by omega,
            show ¬(45 : Nat) = 91 by omega, show ¬(45 : Nat) = 123 by omega,
            if_neg, if_false, if_pos, hdig, if_true]
          rw [show (d :: (t ++ rest)) = natDigits n.natAbs ++ rest by rw [hdt]; simp]
          rw [parseDigits_natDigits n.natAbs rest hrest]
          have hneg : -((n.natAbs : Nat) : Int) = n := by omega
          simp only [hneg]
        · have hr : renderJson (.num n) = natDigits n.toNat := by
            simp [renderJson, renderInt, hn]
          obtain ⟨d, t, hdt, hdig⟩ := natDigits_head n.toNat
          have hdig2 : 48 ≤ d ∧ d ≤ 57 := by simpa [isDigit] using hdig
          rw [hr, hdt, List.cons_append]
          simp only [parseVal]
          simp only [show ¬d = 110 by omega, show ¬d = 116 by omega,
            show ¬d = 102 by omega, show ¬d = 34 by omega, show ¬d = 91 by omega,
            show ¬d = 123 by omega, show ¬d = 45 by omega,
            if_neg, if_false, hdig, if_true]
          rw [show (d :: (t ++ rest)) = natDigits n.toNat ++ rest by rw [hdt]; simp]
          rw [parseDigits_natDigits n.toNat rest hrest]
          have hpos : ((n.toNat : Nat) : Int) = n := by omega
          simp only [hpos]
      | str s =>
        rw [show renderJson (.str s) ++ rest = 34 :: (escBytes s ++ 34 :: rest) by
          simp [renderJson, renderStr]]
        simp only [parseVal]
        simp [parseStrBody_esc]
      | arr vs =>
        cases vs with
        | nil =>
          rw [show renderJson (.arr .nil) ++ rest = 91 :: 93 :: rest from rfl]
          rfl
        | cons v vs =>
          rw [show renderJson (.arr (.cons v vs)) ++ rest
              = 91 :: (renderJson v ++ renderArrTail vs ++ 93 :: rest) by
            simp [renderJson]]
          simp only [parseVal]
          obtain ⟨b, t, hbt, hb93, _⟩ := renderJson_head v
          have hhd : (renderJson v ++ renderArrTail vs ++ 93 :: rest).head? = some b := by
            simp [hbt]
          have hlen2 : (renderJson v).length + (renderArrTail vs).length + 1 < fuel := by
            rw [show renderJson (.arr (.cons v vs))
                = 91 :: renderJson v ++ renderArrTail vs ++ [93] from rfl] at hlen
            simp [List.length_append] at hlen
            omega
          simp only [hhd]
          rw [if_neg (show ¬((some b : Option Nat) = some 93) from by simp [hb93])]
          rw [ihI v vs rest hlen2]
          simp
      | obj fs =>
        cases fs with
        | nil =>
          rw [show renderJson (.obj .nil) ++ rest = 123 :: 125 :: rest from rfl]
          rfl
        | cons k v fs =>
          rw [show renderJson (.obj (.cons k v fs)) ++ rest
              = 123 :: (renderStr k ++ 58 :: renderJson v ++ renderObjTail fs ++ 125 :: rest) by
            simp [renderJson, renderStr]]
          simp only [parseVal]
          have hhd : (renderStr k ++ 58 :: renderJson v ++ renderObjTail fs
              ++ 125 :: rest).head? = some 34 := by
            simp [renderStr]
          have hlen2 : (renderStr k).length + (renderJson v).length
              + (renderObjTail fs).length + 2 < fuel := by
            rw [show renderJson (.obj (.cons k v fs))
                = 123 :: renderStr k ++ 58 :: renderJson v ++ renderObjTail fs ++ [125]
                from rfl] at hlen
            simp [List.length_append] at hlen
            omega
          simp only [hhd]
          rw [if_neg (show ¬((some 34 : Option Nat) = some 125) from by decide)]
          rw [ihF k v fs rest hlen2]
          simp
    · intro v vs rest hlen
      have hrest : ∀ b, (renderArrTail vs ++ 93 :: rest).head? = some b → isDigit b = false := by
        cases vs with
        | nil => intro b hb; simp [renderArrTail] at hb; subst hb; decide
        | cons w ws =>
          intro b hb
          simp [renderArrTail] at hb
          subst hb; decide
      have hv := ihV v (renderArrTail vs ++ 93 :: rest) (by omega) hrest
      simp only [parseItems]
      rw [List.append_assoc, hv]
      cases vs with
      | nil => simp [renderArrTail]
      | cons w ws =>
        have hlen2 : (renderJson w).length + (renderArrTail ws).length + 1 < fuel := by
          simp [renderArrTail, List.length_append] at hlen
          omega
        rw [show renderArrTail (.cons w ws) ++ 93 :: rest
            = 44 :: (renderJson w ++ renderArrTail ws ++ 93 :: rest) by
          simp [renderArrTail]]
        simp only [ihI w ws rest hlen2]
        simp
    · intro k v fs rest hlen
      rw [show renderStr k ++ 58 :: renderJson v ++ renderObjTail fs ++ 125 :: rest
          = 34 :: (escBytes k ++ 34 :: (58 :: (renderJson v ++ (renderObjTail fs
            ++ 125 :: rest)))) by simp [renderStr]]
      have hrest : ∀ b, (renderObjTail fs ++ 125 :: rest).head? = some b
          → isDigit b = false := by
        cases fs with
        | nil => intro b hb; simp [renderObjTail] at hb; subst hb; decide
        | cons k2 v2 fs2 =>
          intro b hb
          simp [renderObjTail] at hb
          subst hb; decide
      have hv := ihV v (renderObjTail fs ++ 125 :: rest) (by simp [renderStr] at hlen; omega)
        hrest
      simp only [parseFields, parseStrBody_esc, hv]
      cases fs with
      | nil => simp [renderObjTail]
      | cons k2 v2 fs2 =>
        have hlen2 : (renderStr k2).length + (renderJson v2).length
            + (renderObjTail fs2).length + 2 < fuel := by
          simp only [renderStr, renderObjTail, List.length_append, List.length_cons] at hlen ⊢
          omega
        rw [show renderObjTail (.cons k2 v2 fs2) ++ 125 :: rest
            = 44 :: (renderStr k2 ++ 58 :: renderJson v2 ++ renderObjTail fs2 ++ 125 :: rest)
          by simp [renderStr, renderObjTail]]
        simp only [ihF k2 v2 fs2 rest hlen2]
        simp

theorem parseJson_render (v : Json) : parseJson (renderJson v) = some (v, []) := by
  have h := (parse_render_fuel ((renderJson v).length + 1)).1 v [] (by omega) (by simp)
  rw [List.append_nil] at h
  simpa [parseJson] using h

/-- C9 (amended): `from_json_bytes(S, to_json_bytes(e))` returns `e` with
`status := S`, for every `e` whose `meta` is not `Some(Null)`.
(`"meta":null` deserializes into `meta = None`, so `Some(Null)` does not
survive the round trip; see the counterexample.) -/
theorem from_to_json_roundtrip (S : Nat) (e : TwirpError)
    (hmeta : e.meta ≠ some Json.null) :
    TwirpError.from_json_bytes S e.to_json_bytes = some { e with status := S } := by
  unfold TwirpError.from_json_bytes TwirpError.to_json_bytes
  rw [parseJson_render]
  obtain ⟨st, c, m, meta⟩ := e
  cases meta with
  | none => rfl
  | some v =>
    have hv : v ≠ Json.null := by
      intro h
      exact hmeta (by simp [h])
    have hj : jsonToMeta v = some v := by
      cases v with
      | null => exact absurd rfl hv
      | bool b => rfl
      | num n => rfl
      | str s => rfl
      | arr vs => rfl
      | obj fs => rfl
    show some ({ status := S, code := c, msg := m, meta := jsonToMeta v } : TwirpError)
      = some { status := S, code := c, msg := m, meta := some v }
    rw [hj]

theorem from_to_json_roundtrip_witness :
    TwirpError.from_json_bytes 404 (TwirpError.to_json_bytes
      { status := 500, code := strBytes "internal", msg := strBytes "boom",
        meta := some (Json.num 5) })
      = some { status := 404, code := strBytes "internal", msg := strBytes "boom",
               meta := some (Json.num 5) } :=
  from_to_json_roundtrip 404
    { status := 500, code := strBytes "internal", msg := strBytes "boom",
      meta := some (Json.num 5) } (by decide)

/-- C9 (counterexample): with `meta = Some(Null)` the round trip loses the
`meta` field (serde deserializes JSON `null` into `None` for an
`Option<Value>` field), so the claim fails as stated. -/
theorem from_to_json_meta_null_counterexample :
    TwirpError.from_json_bytes 404
        (TwirpError.to_json_bytes
          { status := 500, code := strBytes "internal", msg := strBytes "x",
            meta := some Json.null })
      ≠ some { status := 404, code := strBytes "internal", msg := strBytes "x",
                meta := some Json.null }
    ∧ TwirpError.from_json_bytes 404
        (TwirpError.to_json_bytes
          { status := 500, code := strBytes "internal", msg := strBytes "x",
            meta := some Json.null })
      = some { status := 404, code := strBytes "internal", msg := strBytes "x",
                meta := none } := by
  constructor
  · decide
  · decide
